import Mathlib

/-!
Verification development for the DiCloud storage core.

Shallow embedding of `src/src/file/FileBase.ts` and
`src/src/DiscordFileStorageApp.ts`.  JavaScript numbers that hold integral
quantities (sizes, `Date.getTime()` millisecond timestamps, Discord snowflake
ids) are modelled as `Int` or `Nat`; `null`/`undefined` as `Option`; a thrown
`Error` as `Except.error`; object identity of mutable heap objects as an
explicit numeric id, with mutation modelled by explicit state passing of the
touched records.
-/

namespace DiCloud

/-! ## Folder model

`src/src/file/filesystem/Folder.ts` is not part of the provided sources; only
`FileBase.ts` consumes it.  The parts of `Folder` that `FileBase` calls
(`getAbsolutePath`, `addFile`, `removeFile`) are modelled from the spec. -/

/-- Modelled from the spec (Folder.ts is not under src/): the chain of folder
names from the root down to a folder.  `root` is the root folder; `sub p n` is
the folder named `n` whose parent chain is `p`. -/
inductive FolderPath where
  | root : FolderPath
  | sub : FolderPath → String → FolderPath
deriving DecidableEq

/-- Modelled from the spec (Folder.ts is not under src/): "the root folder's
absolute path is the empty/“/” prefix; a folder's absolute path is its
parent's absolute path concatenated with its own name and a trailing
separator."  The root is rendered as the "/" prefix. -/
def FolderPath.absolutePath : FolderPath → String
  | .root => "/"
  | .sub p n => p.absolutePath ++ n ++ "/"

/-- Modelled from the spec (Folder.ts is not under src/): a folder, reduced to
what `FileBase.ts` observes of it: its identity (`fid`, standing for the
JavaScript object identity), its position in the tree (`path`), and the ids of
the files it contains (the file half of the spec's name→child mapping). -/
structure Folder where
  fid : Nat
  path : FolderPath
  files : List Nat
deriving DecidableEq

/-- Folder.getAbsolutePath, modelled from the spec via the folder's path. -/
def Folder.getAbsolutePath (fld : Folder) : String :=
  fld.path.absolutePath

/-- Modelled from the spec (Folder.ts is not under src/): registering a file in
the folder's child collection. -/
def Folder.addFile (fld : Folder) (fileId : Nat) : Folder :=
  { fld with files := fld.files ++ [fileId] }

/-- Modelled from the spec (Folder.ts is not under src/): removing a file's
entry from the folder's child collection. -/
def Folder.removeFile (fld : Folder) (fileId : Nat) : Folder :=
  { fld with files := fld.files.filter (fun i => i ≠ fileId) }

/-! ## FileBase (src/src/file/FileBase.ts) -/

/-- The fields of `FileBase` (FileBase.ts lines 9-24).  `folder` holds the id
of the owning folder object, `none` modelling a `null` reference.  `fid` is
the file object's own identity, used to model membership in a folder's child
collection. -/
structure FileBase where
  fid : Nat
  filename : String
  totalSize : Int
  creationDate : Int
  modifyDate : Int
  folder : Option Nat
  markedDeleted : Bool
deriving DecidableEq

/-- FileBase.getFolder (FileBase.ts line 35). -/
def FileBase.getFolder (f : FileBase) : Option Nat :=
  f.folder

/-- FileBase.setNullFolder (FileBase.ts line 39): `this.folder = null`. -/
def FileBase.setNullFolder (f : FileBase) : FileBase :=
  { f with folder := none }

/-- FileBase.setFolder (FileBase.ts lines 43-51).  The old and the new folder
objects are passed explicitly (the old one is the object `f.folder` refers
to); the result is the updated file together with both updated folders.  When
`updateParents` and the current folder is non-null, the file is moved between
the two child collections; otherwise only the reference changes. -/
def FileBase.setFolder (f : FileBase) (oldFolder newFolder : Folder)
    (updateParents : Bool) : FileBase × Folder × Folder :=
  if updateParents && f.folder.isSome then
    ({ f with folder := some newFolder.fid },
      oldFolder.removeFile f.fid, newFolder.addFile f.fid)
  else
    ({ f with folder := some newFolder.fid }, oldFolder, newFolder)

/-- FileBase.getFileName (FileBase.ts line 65). -/
def FileBase.getFileName (f : FileBase) : String :=
  f.filename

/-- FileBase.getAbsolutePath (FileBase.ts lines 53-58): throws "Folder is
null" when the folder reference is null, otherwise the folder's absolute path
concatenated with the file's name.  `lookupFolder` resolves the stored folder
id to the folder object it references. -/
def FileBase.getAbsolutePath (lookupFolder : Nat → Folder) (f : FileBase) :
    Except String String :=
  match f.folder with
  | none => Except.error "Folder is null"
  | some i => Except.ok ((lookupFolder i).getAbsolutePath ++ f.getFileName)

/-- FileBase.setFileName (FileBase.ts line 69). -/
def FileBase.setFileName (f : FileBase) (newName : String) : FileBase :=
  { f with filename := newName }

/-- FileBase.getSize (FileBase.ts line 74). -/
def FileBase.getSize (f : FileBase) : Int :=
  f.totalSize

/-- FileBase.getCreationDate (FileBase.ts line 78). -/
def FileBase.getCreationDate (f : FileBase) : Int :=
  f.creationDate

/-- FileBase.getModifyDate (FileBase.ts line 86). -/
def FileBase.getModifyDate (f : FileBase) : Int :=
  f.modifyDate

/-- FileBase.setModifyDate (FileBase.ts line 90). -/
def FileBase.setModifyDate (f : FileBase) (date : Int) : FileBase :=
  { f with modifyDate := date }

/-- FileBase.setTotalSize (FileBase.ts line 98). -/
def FileBase.setTotalSize (f : FileBase) (totalSize : Int) : FileBase :=
  { f with totalSize := totalSize }

/-- FileBase.getETag (FileBase.ts lines 102-104):
`this.modifyDate.getTime() + "-" + this.getSize()`. -/
def FileBase.getETag (f : FileBase) : String :=
  toString f.modifyDate ++ "-" ++ toString f.getSize

/-- FileBase.rm (FileBase.ts lines 115-119): removes this file from its
folder's child collection and returns that folder.  The file's own `folder`
field is not written.  The folder object `f.folder` refers to is passed
explicitly; the result pairs the (unchanged) file with the returned folder. -/
def FileBase.rm (f : FileBase) (fld : Folder) : FileBase × Folder :=
  (f, fld.removeFile f.fid)

/-! ## DiscordFileStorageApp (src/src/DiscordFileStorageApp.ts) -/

/-- The fields of `DiscordFileStorageAppOptions` that the constructor reads
(DiscordFileStorageApp.ts lines 9-15).  The `ClientOptions` part belongs to
the external discord.js transport and is not modelled. -/
structure DiscordFileStorageAppOptions where
  metaChannelName : String
  filesChannelName : String
  shouldEncrypt : Bool
  encryptPassword : Option String
deriving DecidableEq

/-- The state a constructed `DiscordFileStorageApp` carries (the fields
assigned in DiscordFileStorageApp.ts lines 42-54; the discord.js client state
and the file manager are external collaborators and not modelled). -/
structure DiscordFileStorageApp where
  guildId : String
  metaChannelName : String
  filesChannelId : String
  channelsToCreate : List String
  shouldEncrypt : Bool
  encryptPassword : String
deriving DecidableEq

/-- The field assignments of the constructor body on its success path
(DiscordFileStorageApp.ts lines 42-53): `encryptPassword` defaults to the
empty string when the option is absent (`options.encryptPassword ?? ""`). -/
def mkApp (options : DiscordFileStorageAppOptions) (guildId : String) :
    DiscordFileStorageApp :=
  { guildId := guildId
    metaChannelName := options.metaChannelName
    filesChannelId := options.filesChannelName
    channelsToCreate := [options.metaChannelName, options.filesChannelName]
    shouldEncrypt := options.shouldEncrypt
    encryptPassword := options.encryptPassword.getD "" }

/-- The constructor (DiscordFileStorageApp.ts lines 35-56) acting on the
static field `DiscordFileStorageApp.instance`, passed in as `inst` and
returned updated: if an instance is already registered the constructor throws
"DiscordFileStorageApp already exists" and the static field keeps its value;
otherwise the new app is built and registered. -/
def construct (inst : Option DiscordFileStorageApp)
    (options : DiscordFileStorageAppOptions) (guildId : String) :
    Except String DiscordFileStorageApp × Option DiscordFileStorageApp :=
  match inst with
  | some _ => (Except.error "DiscordFileStorageApp already exists", inst)
  | none => (Except.ok (mkApp options guildId), some (mkApp options guildId))

/-- DiscordFileStorageApp.shouldEncryptFiles (DiscordFileStorageApp.ts
lines 58-60). -/
def DiscordFileStorageApp.shouldEncryptFiles (app : DiscordFileStorageApp) :
    Bool :=
  app.shouldEncrypt

/-- DiscordFileStorageApp.getEncryptPassword (DiscordFileStorageApp.ts
lines 62-64). -/
def DiscordFileStorageApp.getEncryptPassword (app : DiscordFileStorageApp) :
    String :=
  app.encryptPassword

/-- Outcome of `prepare` (DiscordFileStorageApp.ts lines 85-111): either the
process was terminated through `printAndExit` (message and exit code), or
`prepare` ran to completion, having created the listed channels. -/
inductive PrepareOutcome where
  | exited : String → Nat → PrepareOutcome
  | completed : List String → PrepareOutcome
deriving DecidableEq

/-- printAndExit (DiscordFileStorageApp.ts lines 204-207): prints the message
and terminates the process with the given exit code (default 1 at all call
sites in `prepare`). -/
def printAndExit (message : String) (exitCode : Nat) : PrepareOutcome :=
  PrepareOutcome.exited message exitCode

/-- prepare (DiscordFileStorageApp.ts lines 85-111).  Its interactions with
the external discord.js client are passed in as values: `cacheHasGuild` is
`this.guilds.cache.has(this.guildId)`, `fetchedGuild` the value of
`guilds.get(this.guildId)?.fetch()` (`none` models a falsy result), and
`existingTextChannelNames` the names of the guild's text channels.  A cache
miss exits with "Guild not found"; a falsy fetched guild exits with "Failed to
fetch guild: <id>"; otherwise every name of `channelsToCreate` that has no
existing text channel is created and `prepare` completes. -/
def prepare (cacheHasGuild : Bool) (fetchedGuild : Option String)
    (guildId : String) (existingTextChannelNames : List String)
    (channelsToCreate : List String) : PrepareOutcome :=
  if !cacheHasGuild then
    printAndExit "Guild not found" 1
  else
    match fetchedGuild with
    | none => printAndExit ("Failed to fetch guild: " ++ guildId) 1
    | some _ =>
        PrepareOutcome.completed
          (channelsToCreate.filter
            (fun c => !(existingTextChannelNames.contains c)))

/-! ## Metadata messages, getAllMessages and loadFiles -/

/-- A parsed file descriptor, the payload a valid metadata record carries.
`RemoteFile.ts` is not under src/, so the descriptor is kept abstract as the
record's name. -/
structure Descriptor where
  filename : String
deriving DecidableEq

/-- Modelled from the spec (RemoteFile.ts is not under src/): the object
parsed from a metadata attachment is either a well-formed record carrying a
descriptor, or malformed ("malformed or incomplete records" in the spec). -/
inductive RecordObj where
  | valid : Descriptor → RecordObj
  | malformed : RecordObj
deriving DecidableEq

/-- Modelled from the spec (RemoteFile.ts is not under src/):
`RemoteFile.isValidRemoteFile`, the validation that "discards malformed or
incomplete records". -/
def isValidRemoteFile : RecordObj → Bool
  | RecordObj.valid _ => true
  | RecordObj.malformed => false

/-- Modelled from the spec (RemoteFile.ts is not under src/):
`RemoteFile.fromObject` on an object that passed validation yields its
descriptor.  `loadFiles` only calls it under the validation guard; the
malformed case is never reached there. -/
def RemoteFile.fromObject : RecordObj → Descriptor
  | RecordObj.valid d => d
  | RecordObj.malformed => { filename := "" }

/-- One attachment of a metadata message: its display name and the object its
content parses to (the code downloads the content over the network; the
download is modelled as already resolved). -/
structure AttachmentData where
  name : String
  content : RecordObj
deriving DecidableEq

/-- A Discord message as `getAllMessages`/`loadFiles` observe it: its
snowflake id (snowflakes increase strictly with creation time) and its
attachments. -/
structure Message where
  id : Nat
  attachments : List AttachmentData
deriving DecidableEq

/-- The messages of a channel eligible for one fetch: all of them when no
`before` cursor is given, otherwise those with id strictly below the cursor.
The channel is given in chronological (oldest→newest) order. -/
def eligibleMessages (channel : List Message) : Option Nat → List Message
  | none => channel
  | some b => channel.filter (fun m => decide (m.id < b))

/-- Models discord.js `channel.messages.fetch({ limit: 100, before })`: the up
to 100 most recent messages of the channel lying strictly before the cursor,
returned newest-first (the transport's native page, DiscordFileStorageApp.ts
lines 119-124). -/
def fetchPage (channel : List Message) (before : Option Nat) : List Message :=
  (eligibleMessages channel before).reverse.take 100

/-- The `while (true)` loop of getAllMessages (DiscordFileStorageApp.ts
lines 118-133), with the unbounded loop given explicit fuel: fetch a page,
concatenate it onto the accumulator, stop when the page is short (fewer than
100 messages), otherwise continue with the cursor set to the page's last
message (`messages.pop()`).  The `none` branch of `getLast?` models the
`pop()!` on an empty page and is unreachable in the else-branch, where the
page has exactly 100 messages. -/
def getAllMessagesLoop (channel : List Message) :
    Nat → Option Nat → List Message → List Message
  | 0, _, acc => acc
  | Nat.succ fuel, before, acc =>
    if (fetchPage channel before).length < 100 then
      acc ++ fetchPage channel before
    else
      match (fetchPage channel before).getLast? with
      | none => acc ++ fetchPage channel before
      | some m =>
          getAllMessagesLoop channel fuel (some m.id)
            (acc ++ fetchPage channel before)

/-- getAllMessages (DiscordFileStorageApp.ts lines 113-136): runs the fetch
loop from no cursor with an empty accumulator.  Fuel `channel.length + 1`
strictly exceeds the number of iterations the loop can make (each full page
removes 100 messages from the remaining eligible set). -/
def getAllMessages (channel : List Message) : List Message :=
  getAllMessagesLoop channel (channel.length + 1) none []

/-- The counters and the loaded descriptors produced by `loadFiles`
(DiscordFileStorageApp.ts lines 145-183): `loaded` lists the descriptors
added to the filesystem in processing order, `totalLoadedFiles` and
`failedFiles` are the two counters of the code. -/
structure LoadResult where
  loaded : List Descriptor
  totalLoadedFiles : Nat
  failedFiles : Nat
deriving DecidableEq

/-- The message loop of loadFiles (DiscordFileStorageApp.ts lines 154-176):
a message without attachments is skipped; otherwise the first attachment's
content is validated with `RemoteFile.isValidRemoteFile` — on success the
record is loaded via `RemoteFile.fromObject`, on failure `failedFiles` is
incremented; `totalLoadedFiles` counts every attachment-bearing message, and
the loop always continues with the remaining messages. -/
def loadFilesLoop :
    List Message → List Descriptor → Nat → Nat → LoadResult
  | [], loaded, total, failed =>
    { loaded := loaded, totalLoadedFiles := total, failedFiles := failed }
  | msg :: rest, loaded, total, failed =>
    match msg.attachments with
    | [] => loadFilesLoop rest loaded total failed
    | att :: _ =>
      if isValidRemoteFile att.content then
        loadFilesLoop rest (loaded ++ [RemoteFile.fromObject att.content])
          (total + 1) failed
      else
        loadFilesLoop rest loaded (total + 1) (failed + 1)

/-- loadFiles (DiscordFileStorageApp.ts lines 145-183) on an already fetched
message list: the loop starting from empty accumulators. -/
def loadFiles (messages : List Message) : LoadResult :=
  loadFilesLoop messages [] 0 0

/-- The descriptor a single message contributes to the rebuilt filesystem:
`none` for a message without attachments or with a malformed record, the
parsed descriptor otherwise. -/
def extractValid (msg : Message) : Option Descriptor :=
  match msg.attachments with
  | [] => none
  | att :: _ =>
    if isValidRemoteFile att.content then
      some (RemoteFile.fromObject att.content)
    else none

/-- Whether a message is counted as a load failure by `loadFiles`: it carries
an attachment whose record fails validation. -/
def isFailedRecord (msg : Message) : Bool :=
  match msg.attachments with
  | [] => false
  | att :: _ => !isValidRemoteFile att.content

/-- Whether a message carries at least one attachment
(`msg.attachments.size > 0`). -/
def hasAttachment (msg : Message) : Bool :=
  !msg.attachments.isEmpty

end DiCloud

namespace DiCloud

/-! ## Theorems about FileBase -/

/-- Every folder's absolute path, as modelled from the spec, ends in the
separator "/". -/
theorem FolderPath.absolutePath_trailing_sep (p : FolderPath) :
    ∃ s, p.absolutePath = s ++ "/" := by
  cases p with
  | root => exact ⟨"", rfl⟩
  | sub q n => exact ⟨q.absolutePath ++ n, rfl⟩

/-- C3: `getETag` is a pure deterministic function of exactly the pair
(modifyDate, totalSize): any two file states agreeing on that pair have equal
ETags; after `setModifyDate` the ETag is recomputed from the new date and the
current size (nothing stored); and the setters of the two components change no
other field of the file. -/
theorem getETag_function_of_modifyDate_totalSize :
    (∀ (f g : FileBase) (d n : Int),
      FileBase.getETag { f with modifyDate := d, totalSize := n } =
        FileBase.getETag { g with modifyDate := d, totalSize := n }) ∧
    (∀ (f : FileBase) (d : Int),
      (f.setModifyDate d).getETag = toString d ++ "-" ++ toString f.totalSize) ∧
    (∀ (f : FileBase) (n : Int),
      (f.setTotalSize n).getETag = toString f.modifyDate ++ "-" ++ toString n) ∧
    (∀ (f : FileBase) (d : Int),
      (f.setModifyDate d).fid = f.fid ∧
      (f.setModifyDate d).filename = f.filename ∧
      (f.setModifyDate d).totalSize = f.totalSize ∧
      (f.setModifyDate d).creationDate = f.creationDate ∧
      (f.setModifyDate d).folder = f.folder ∧
      (f.setModifyDate d).markedDeleted = f.markedDeleted) ∧
    (∀ (f : FileBase) (n : Int),
      (f.setTotalSize n).fid = f.fid ∧
      (f.setTotalSize n).filename = f.filename ∧
      (f.setTotalSize n).creationDate = f.creationDate ∧
      (f.setTotalSize n).modifyDate = f.modifyDate ∧
      (f.setTotalSize n).folder = f.folder ∧
      (f.setTotalSize n).markedDeleted = f.markedDeleted) := by
  refine ⟨fun f g d n => rfl, fun f d => rfl, fun f n => rfl, ?_, ?_⟩
  · exact fun f d => ⟨rfl, rfl, rfl, rfl, rfl, rfl⟩
  · exact fun f n => ⟨rfl, rfl, rfl, rfl, rfl, rfl⟩

/-- C4: the move/rename primitives `setFolder` (in both of its branches, for
any value of `updateParents`) and `setFileName` leave the file's size,
creation date and modification date unchanged, as observed through `getSize`,
`getCreationDate` and `getModifyDate`. -/
theorem setFolder_setFileName_preserve_size_and_dates :
    ∀ (f : FileBase) (oldFolder newFolder : Folder) (updateParents : Bool)
      (newName : String),
      (f.setFolder oldFolder newFolder updateParents).1.getSize = f.getSize ∧
      (f.setFolder oldFolder newFolder updateParents).1.getCreationDate =
        f.getCreationDate ∧
      (f.setFolder oldFolder newFolder updateParents).1.getModifyDate =
        f.getModifyDate ∧
      (f.setFileName newName).getSize = f.getSize ∧
      (f.setFileName newName).getCreationDate = f.getCreationDate ∧
      (f.setFileName newName).getModifyDate = f.getModifyDate := by
  intro f oldFolder newFolder updateParents newName
  refine ⟨?_, ?_, ?_, rfl, rfl, rfl⟩ <;>
    simp only [FileBase.setFolder] <;> split <;> rfl

/-- C6: for every file whose folder reference is set, `getAbsolutePath`
returns exactly the owning folder's absolute path concatenated with the file's
own name, and the folder's absolute path carries the trailing separator. -/
theorem getAbsolutePath_parent_then_name :
    ∀ (lookupFolder : Nat → Folder) (f : FileBase) (i : Nat),
      FileBase.getAbsolutePath lookupFolder { f with folder := some i } =
        Except.ok ((lookupFolder i).getAbsolutePath ++ f.filename) ∧
      ∃ s, (lookupFolder i).getAbsolutePath = s ++ "/" := by
  intro lookupFolder f i
  exact ⟨rfl, FolderPath.absolutePath_trailing_sep (lookupFolder i).path⟩

/-- C9: `getAbsolutePath` on a file whose folder reference is null — in
particular right after `setNullFolder` — throws "Folder is null"; on any file
whose folder reference is non-null it returns a path, so the error branch is
unreachable there. -/
theorem getAbsolutePath_null_folder_throws :
    ∀ (lookupFolder : Nat → Folder) (f : FileBase),
      FileBase.getAbsolutePath lookupFolder f.setNullFolder =
        Except.error "Folder is null" ∧
      FileBase.getAbsolutePath lookupFolder { f with folder := none } =
        Except.error "Folder is null" ∧
      (∀ (i : Nat), ∃ s,
        FileBase.getAbsolutePath lookupFolder { f with folder := some i } =
          Except.ok s) := by
  intro lookupFolder f
  exact ⟨rfl, rfl, fun i =>
    ⟨(lookupFolder i).getAbsolutePath ++ f.filename, rfl⟩⟩

/-- C5: when the configured guild is missing from the client's cache, or is
cached but its fetch yields no guild, `prepare` terminates the process through
`printAndExit` with the respective error message and exit code 1; only when
both steps succeed does `prepare` continue (and complete). -/
theorem prepare_exits_on_unresolved_guild :
    ∀ (fetchedGuild : Option String) (guildId : String)
      (existingTextChannelNames channelsToCreate : List String),
      prepare false fetchedGuild guildId existingTextChannelNames
          channelsToCreate =
        PrepareOutcome.exited "Guild not found" 1 ∧
      prepare true none guildId existingTextChannelNames channelsToCreate =
        PrepareOutcome.exited ("Failed to fetch guild: " ++ guildId) 1 ∧
      (∀ (g : String), ∃ created,
        prepare true (some g) guildId existingTextChannelNames
            channelsToCreate =
          PrepareOutcome.completed created) := by
  intro fetchedGuild guildId existingTextChannelNames channelsToCreate
  refine ⟨rfl, rfl, fun g => ⟨_, rfl⟩⟩

/-- C7: the encryption configuration is app-wide: `shouldEncryptFiles` and
`getEncryptPassword` return exactly the constructor-supplied values (every
call reads the same stored field), a successful construction registers the app
built from those options, and when no `encryptPassword` option is supplied the
password is the empty string. -/
theorem encryption_config_is_constructor_supplied :
    ∀ (options : DiscordFileStorageAppOptions) (guildId : String),
      (mkApp options guildId).shouldEncryptFiles = options.shouldEncrypt ∧
      (mkApp options guildId).getEncryptPassword =
        options.encryptPassword.getD "" ∧
      construct none options guildId =
        (Except.ok (mkApp options guildId), some (mkApp options guildId)) ∧
      (mkApp { options with encryptPassword := none }
          guildId).getEncryptPassword = "" := by
  intro options guildId
  exact ⟨rfl, rfl, rfl, rfl⟩

/-- C8: constructing a `DiscordFileStorageApp` while the static instance field
is already populated throws "DiscordFileStorageApp already exists" and leaves
the registered instance unchanged, whatever options are supplied. -/
theorem construct_second_instance_throws :
    ∀ (existing : DiscordFileStorageApp)
      (options : DiscordFileStorageAppOptions) (guildId : String),
      (construct (some existing) options guildId).1 =
        Except.error "DiscordFileStorageApp already exists" ∧
      (construct (some existing) options guildId).2 = some existing := by
  intro existing options guildId
  exact ⟨rfl, rfl⟩

/-- The accumulator loop of `loadFiles` computes, from any starting state, the
starting state extended by the contribution of the remaining messages: the
valid records in order, the count of attachment-bearing messages, and the
count of failed records. -/
theorem loadFilesLoop_characterization :
    ∀ (messages : List Message) (loaded : List Descriptor) (total failed : Nat),
      loadFilesLoop messages loaded total failed =
        { loaded := loaded ++ messages.filterMap extractValid,
          totalLoadedFiles := total + (messages.filter hasAttachment).length,
          failedFiles := failed + (messages.filter isFailedRecord).length } := by
  intro messages
  induction messages with
  | nil => intro loaded total failed; simp [loadFilesLoop]
  | cons msg rest ih =>
    intro loaded total failed
    cases hatt : msg.attachments with
    | nil =>
      simp only [loadFilesLoop, hatt, ih, List.filterMap_cons,
        List.filter_cons, extractValid, hasAttachment, isFailedRecord, hatt,
        List.isEmpty_nil]
      simp
    | cons att tl =>
      by_cases hval : isValidRemoteFile att.content
      · simp only [loadFilesLoop, hatt, hval, if_true, ih, List.filterMap_cons,
          List.filter_cons, extractValid, hasAttachment, isFailedRecord, hatt,
          List.isEmpty_cons, hval]
        simp [Nat.add_assoc, Nat.add_comm 1]
      · simp only [loadFilesLoop, hatt, hval, if_false, ih, List.filterMap_cons,
          List.filter_cons, extractValid, hasAttachment, isFailedRecord, hatt,
          List.isEmpty_cons, hval]
        simp [hval, Nat.add_assoc, Nat.add_comm 1]

/-- C2: a metadata message whose first attachment's record is malformed is
counted as one load failure and contributes nothing to the loaded files, and
the rebuild still loads every valid record before and after it — one corrupt
record never aborts the rebuild. -/
theorem loadFiles_malformed_record_nonfatal :
    ∀ (pre post : List Message) (mid : Nat) (attName : String)
      (restAtts : List AttachmentData),
      (loadFiles (pre ++
          { id := mid,
            attachments :=
              { name := attName, content := RecordObj.malformed } :: restAtts }
          :: post)).loaded =
        (loadFiles pre).loaded ++ (loadFiles post).loaded ∧
      (loadFiles (pre ++
          { id := mid,
            attachments :=
              { name := attName, content := RecordObj.malformed } :: restAtts }
          :: post)).failedFiles =
        (loadFiles pre).failedFiles + (loadFiles post).failedFiles + 1 ∧
      (loadFiles pre).loaded = pre.filterMap extractValid ∧
      (loadFiles post).loaded = post.filterMap extractValid := by
  intro pre post mid attName restAtts
  simp only [loadFiles, loadFilesLoop_characterization]
  refine ⟨?_, ?_, by simp, by simp⟩
  · simp [List.filterMap_append, extractValid, isValidRemoteFile]
  · simp [List.filter_append, isFailedRecord, isValidRemoteFile]
    omega

/-- C10: `rm` removes the file from its folder's child collection and returns
that folder, but leaves the file's own parent reference untouched: right after
`rm`, `getFolder` still answers the old folder id (in particular not `none`)
rather than null. -/
theorem rm_removes_from_folder_keeps_reference :
    ∀ (f : FileBase) (fld : Folder),
      (f.rm fld).1.getFolder = f.getFolder ∧
      (FileBase.rm { f with folder := some fld.fid } fld).1.getFolder =
        some fld.fid ∧
      f.fid ∉ (f.rm fld).2.files ∧
      (f.rm fld).2 = fld.removeFile f.fid := by
  intro f fld
  refine ⟨rfl, rfl, ?_, rfl⟩
  simp [FileBase.rm, Folder.removeFile]

/-! ## Theorems about getAllMessages -/

/-- In a channel with strictly increasing message ids, filtering below the id
of the message at position `k` keeps exactly the first `k` messages. -/
theorem filter_lt_get_eq_take :
    ∀ (l : List Message), l.Pairwise (fun a b => a.id < b.id) →
      ∀ (k : Nat) (hk : k < l.length),
        l.filter (fun m => decide (m.id < (l.get ⟨k, hk⟩).id)) = l.take k := by
  intro l
  induction l with
  | nil => intro _ k hk; exact absurd hk (by simp)
  | cons a t ih =>
    intro hs k hk
    rcases List.pairwise_cons.mp hs with ⟨ha, ht⟩
    cases k with
    | zero =>
      show (a :: t).filter (fun m => decide (m.id < a.id)) = []
      refine List.filter_eq_nil_iff.mpr ?_
      intro x hx
      simp only [decide_eq_true_eq]
      rcases List.mem_cons.mp hx with h | h
      · subst h; omega
      · have := ha x h; omega
    | succ k =>
      have hk' : k < t.length := Nat.lt_of_succ_lt_succ hk
      show (a :: t).filter
          (fun m => decide (m.id < (t.get ⟨k, hk'⟩).id)) = a :: t.take k
      have hlt : a.id < (t.get ⟨k, hk'⟩).id := ha _ (List.get_mem t k hk')
      have hstep : (a :: t).filter
          (fun m => decide (m.id < (t.get ⟨k, hk'⟩).id)) =
          a :: t.filter (fun m => decide (m.id < (t.get ⟨k, hk'⟩).id)) := by
        simp only [List.filter_cons, if_pos (decide_eq_true hlt)]
      rw [hstep, ih ht k hk']

/-- Conjoining a filter below a cursor with a filter below a larger cursor is
the filter below the smaller cursor. -/
theorem filter_lt_and_lt (l : List Message) (c x : Nat) (hcx : c < x) :
    l.filter (fun m => decide (m.id < c) && decide (m.id < x)) =
      l.filter (fun m => decide (m.id < c)) := by
  apply List.filter_congr
  intro a _
  by_cases h : a.id < c
  · simp [h, Nat.lt_trans h hcx]
  · simp [h]

/-- Moving the cursor to the id of the eligible message at position `k`
shrinks the eligible set to the first `k` eligible messages, for a channel
with strictly increasing ids. -/
theorem eligibleMessages_shrink (channel : List Message)
    (hs : channel.Pairwise (fun a b => a.id < b.id)) (b : Option Nat)
    (k : Nat) (hk : k < (eligibleMessages channel b).length) :
    eligibleMessages channel
        (some ((eligibleMessages channel b).get ⟨k, hk⟩).id) =
      (eligibleMessages channel b).take k := by
  cases b with
  | none => exact filter_lt_get_eq_take channel hs k hk
  | some x =>
    have hk2 : k < (channel.filter (fun m => decide (m.id < x))).length := hk
    have hEpair : (channel.filter (fun m => decide (m.id < x))).Pairwise
        (fun a b => a.id < b.id) := hs.filter _
    have hmem :=
      List.get_mem (channel.filter (fun m => decide (m.id < x))) k hk2
    have hlt :
        ((channel.filter (fun m => decide (m.id < x))).get ⟨k, hk2⟩).id < x := by
      have h2 := (List.mem_filter.mp hmem).2
      simpa using h2
    have h3 := filter_lt_get_eq_take _ hEpair k hk2
    rw [List.filter_filter] at h3
    rw [filter_lt_and_lt channel _ x hlt] at h3
    exact h3

/-- Unfolding: a fetch yielding a short page (fewer than 100 messages) ends
the loop with the page appended. -/
theorem getAllMessagesLoop_succ_small (channel : List Message) (fuel : Nat)
    (before : Option Nat) (acc : List Message)
    (h : (fetchPage channel before).length < 100) :
    getAllMessagesLoop channel (fuel + 1) before acc =
      acc ++ fetchPage channel before := by
  simp [getAllMessagesLoop, h]

/-- Unfolding: a fetch yielding a full page continues the loop with the cursor
at the page's last message. -/
theorem getAllMessagesLoop_succ_full (channel : List Message) (fuel : Nat)
    (before : Option Nat) (acc : List Message) (m : Message)
    (h : ¬ (fetchPage channel before).length < 100)
    (hlast : (fetchPage channel before).getLast? = some m) :
    getAllMessagesLoop channel (fuel + 1) before acc =
      getAllMessagesLoop channel fuel (some m.id)
        (acc ++ fetchPage channel before) := by
  simp [getAllMessagesLoop, h, hlast]

/-- The fetch loop of `getAllMessages`, run on a channel with strictly
increasing ids with enough fuel, appends to its accumulator exactly the
reversal (newest→oldest) of the messages eligible under its cursor. -/
theorem getAllMessagesLoop_eq (channel : List Message)
    (hs : channel.Pairwise (fun a b => a.id < b.id)) :
    ∀ (fuel : Nat) (before : Option Nat) (acc : List Message),
      (eligibleMessages channel before).length < fuel →
      getAllMessagesLoop channel fuel before acc =
        acc ++ (eligibleMessages channel before).reverse := by
  intro fuel
  induction fuel with
  | zero => intro b acc h; exact absurd h (Nat.not_lt_zero _)
  | succ f ih =>
    intro b acc hlen
    by_cases hsmall : (eligibleMessages channel b).length < 100
    · have hpage : fetchPage channel b = (eligibleMessages channel b).reverse := by
        unfold fetchPage
        apply List.take_of_length_le
        simp only [List.length_reverse]
        omega
      have hlen100 : (fetchPage channel b).length < 100 := by
        rw [hpage]
        simp only [List.length_reverse]
        omega
      rw [getAllMessagesLoop_succ_small channel f b acc hlen100, hpage]
    · have hk : (eligibleMessages channel b).length - 100 <
          (eligibleMessages channel b).length := by omega
      have hsplit : (eligibleMessages channel b).reverse =
          ((eligibleMessages channel b).drop
              ((eligibleMessages channel b).length - 100)).reverse ++
            ((eligibleMessages channel b).take
              ((eligibleMessages channel b).length - 100)).reverse := by
        rw [← List.reverse_append, List.take_append_drop]
      have hdroplen : (((eligibleMessages channel b).drop
          ((eligibleMessages channel b).length - 100)).reverse).length = 100 := by
        simp only [List.length_reverse, List.length_drop]
        omega
      have hpage : fetchPage channel b =
          ((eligibleMessages channel b).drop
            ((eligibleMessages channel b).length - 100)).reverse := by
        unfold fetchPage
        rw [hsplit, List.take_left' hdroplen]
      have hlastval : (fetchPage channel b).getLast? =
          some ((eligibleMessages channel b).get
            ⟨(eligibleMessages channel b).length - 100, hk⟩) := by
        rw [hpage, List.getLast?_reverse, List.drop_eq_getElem_cons hk]
        rfl
      have hnotsmall : ¬ (fetchPage channel b).length < 100 := by
        rw [hpage, hdroplen]
        omega
      have helig := eligibleMessages_shrink channel hs b
        ((eligibleMessages channel b).length - 100) hk
      have hfuel : (eligibleMessages channel
          (some (((eligibleMessages channel b).get
            ⟨(eligibleMessages channel b).length - 100, hk⟩)).id)).length < f := by
        rw [helig]
        simp only [List.length_take]
        omega
      rw [getAllMessagesLoop_succ_full channel f b acc _ hnotsmall hlastval,
        ih _ _ hfuel, helig, hpage, List.append_assoc, ← hsplit]

/-- C1 (amended): on a channel with strictly increasing snowflake ids (its
chronological order), `getAllMessages` pages through the entire history on the
transport's page size of 100 and returns every message of the channel exactly
once — in newest-to-oldest order, the reversal of the chronological order. -/
theorem getAllMessages_newest_to_oldest (channel : List Message)
    (hs : channel.Pairwise (fun a b => a.id < b.id)) :
    getAllMessages channel = channel.reverse ∧
    (getAllMessages channel).Perm channel := by
  have h : getAllMessagesLoop channel (channel.length + 1) none [] =
      [] ++ (eligibleMessages channel none).reverse := by
    apply getAllMessagesLoop_eq channel hs
    show channel.length < channel.length + 1
    omega
  have h2 : getAllMessages channel = channel.reverse := by
    simpa [getAllMessages, eligibleMessages] using h
  exact ⟨h2, h2 ▸ List.reverse_perm channel⟩

/-- Witness for C1 (amended): a concrete three-message channel with ascending
ids satisfies the hypothesis, and `getAllMessages` returns its reversal. -/
theorem getAllMessages_newest_to_oldest_witness :
    ([{ id := 1, attachments := [] }, { id := 2, attachments := [] },
        { id := 5, attachments := [] }] : List Message).Pairwise
      (fun a b => a.id < b.id) ∧
    getAllMessages
        [{ id := 1, attachments := [] }, { id := 2, attachments := [] },
          { id := 5, attachments := [] }] =
      ([{ id := 1, attachments := [] }, { id := 2, attachments := [] },
          { id := 5, attachments := [] }] : List Message).reverse :=
  ⟨by decide,
    (getAllMessages_newest_to_oldest
      [{ id := 1, attachments := [] }, { id := 2, attachments := [] },
        { id := 5, attachments := [] }] (by decide)).1⟩

/-- Counterexample to C1 as stated: on the two-message channel whose
chronological (oldest→newest) order is ids 1 then 2, `getAllMessages` returns
the messages newest first — not in oldest-to-newest order. -/
theorem getAllMessages_not_oldest_to_newest :
    getAllMessages
        [{ id := 1, attachments := [] }, { id := 2, attachments := [] }] =
      [{ id := 2, attachments := [] }, { id := 1, attachments := [] }] ∧
    getAllMessages
        [{ id := 1, attachments := [] }, { id := 2, attachments := [] }] ≠
      [{ id := 1, attachments := [] }, { id := 2, attachments := [] }] := by
  constructor
  · decide
  · decide

end DiCloud
